import Mathlib

/-!
Shallow embedding of the packet codec and the two reliability-engine variants
of the claude-go-network repository (files `packet.go`, `reliability.go`,
`lockfree_reliability.go`), together with proofs about the spec's claims.

Machine integers are modelled as `Nat` with explicit `% 2^w` at the points
where the Go code performs wrapping unsigned arithmetic.  Byte slices are
`List Nat` whose elements are byte values; the codec applies `% 256` at each
point where Go's `byte` type guarantees the range, so the Lean functions agree
with the Go functions on all byte-valued inputs and stay total elsewhere.
The big-endian byte composition `b0<<24 | b1<<16 | b2<<8 | b3` of the Go
helpers (`ntohl` applied to a little-endian `unsafe` load, as run on the
little-endian targets the repository is written for) is written in the
equivalent arithmetic form `b0*2^24 + b1*2^16 + b2*2^8 + b3`, which is the
same number for byte-valued operands because the summands occupy disjoint
bit ranges.  Time instants and durations are nanosecond counts (`Nat`),
passed explicitly where the Go code calls `time.Now()`.
-/

namespace GoNet

/-! ## Protocol constants (packet.go) -/

def PROTOCOL_VERSION : Nat := 1
def PACKET_HEADER_SIZE : Nat := 16
def MAX_PAYLOAD_SIZE : Nat := 1400

def DATA_PACKET : Nat := 1
def ACK_PACKET : Nat := 2
def SYN_PACKET : Nat := 3
def FIN_PACKET : Nat := 4
def RST_PACKET : Nat := 5

def ACK_FLAG : Nat := 1
def SYN_FLAG : Nat := 2
def FIN_FLAG : Nat := 4
def RST_FLAG : Nat := 8

/-! ## Packet structure (packet.go) -/

/-- The `Packet` struct.  The Go field `Type` is a reserved word in Lean and
is rendered `ptype`. -/
structure Packet where
  version : Nat
  ptype : Nat
  flags : Nat
  length : Nat
  seqNum : Nat
  ackNum : Nat
  checksum : Nat
  payload : List Nat
deriving DecidableEq

/-- `NewPacket`: payload longer than `MAX_PAYLOAD_SIZE` is truncated
(`List.take` leaves shorter payloads unchanged, as Go's reslice does);
`Length` is the `uint16` value `PACKET_HEADER_SIZE + len(payload)`. -/
def NewPacket (packetType flags seqNum ackNum : Nat) (payload : List Nat) : Packet :=
  let payload := payload.take MAX_PAYLOAD_SIZE
  { version := PROTOCOL_VERSION
    ptype := packetType
    flags := flags
    length := (PACKET_HEADER_SIZE + payload.length) % 65536
    seqNum := seqNum
    ackNum := ackNum
    checksum := 0
    payload := payload }

/-- Classification helper `IsDataPacket`. -/
def Packet.IsDataPacket (p : Packet) : Bool := p.ptype == DATA_PACKET

/-- Classification helper `IsAckPacket`. -/
def Packet.IsAckPacket (p : Packet) : Bool := p.ptype == ACK_PACKET

/-- Flag helper `HasAck`: `(p.Flags & ACK_FLAG) != 0`. -/
def Packet.HasAck (p : Packet) : Bool := p.flags &&& ACK_FLAG != 0

/-! ## Checksum (packet.go, calculateChecksum) -/

/-- One 32-bit big-endian word assembled from four byte values, the result of
Go's `ntohl` on a little-endian 4-byte load.  Shorter tails pass `0` for the
missing bytes, matching the `word |= data[j] << (8*(3-(j-i)))` tail loop. -/
def word32 (b0 b1 b2 b3 : Nat) : Nat :=
  b0 % 256 * 16777216 + b1 % 256 * 65536 + b2 % 256 * 256 + b3 % 256

/-- The big-endian 16-bit value of two bytes (`ntohs` of a little-endian
load). -/
def be16 (b0 b1 : Nat) : Nat := b0 % 256 * 256 + b1 % 256

/-- The running sum of `calculateChecksum`: 4-byte words are added into a
`uint32` accumulator (wrapping at `2^32`), a final partial word is padded
with zero bytes on the right. -/
def sumWords (acc : Nat) : List Nat → Nat
  | [] => acc
  | [b0] => (acc + word32 b0 0 0 0) % 4294967296
  | [b0, b1] => (acc + word32 b0 b1 0 0) % 4294967296
  | [b0, b1, b2] => (acc + word32 b0 b1 b2 0) % 4294967296
  | b0 :: b1 :: b2 :: b3 :: rest => sumWords ((acc + word32 b0 b1 b2 b3) % 4294967296) rest

/-- The carry-folding loop `for (sum >> 16) > 0 { sum = (sum & 0xFFFF) + (sum >> 16) }`,
written with a fuel argument to make it structurally recursive.  A `uint32`
sum needs at most two foldings (after one step the value is at most
`0x1FFFE`, after two at most `0xFFFF`), so any fuel of at least 2 computes
the loop's result; the callers pass 32. -/
def foldCarries : Nat → Nat → Nat
  | 0, s => s
  | fuel + 1, s => if s >>> 16 > 0 then foldCarries fuel ((s &&& 65535) + (s >>> 16)) else s

/-- `calculateChecksum(header, payload)`: sum both byte slices as 32-bit
words, fold the carries, and return the bitwise complement
(`^sum & 0xFFFFFFFF`, which for a folded value `s ≤ 0xFFFF` is
`0xFFFFFFFF - s`). -/
def calculateChecksum (header payload : List Nat) : Nat :=
  4294967295 - foldCarries 32 (sumWords (sumWords 0 header) payload)

/-! ## Serialization and deserialization (packet.go) -/

/-- `Packet.Serialize`.  Go writes the header into a fresh buffer of
`p.Length` bytes, copies the payload after the 16-byte header (padding with
the buffer's zero bytes when the payload is shorter than `Length - 16` and
truncating when longer), computes the checksum over `buffer[:12]` and
`buffer[16:]`, stores it into the packet's `Checksum` field, and writes it at
bytes 12..15.  The mutation of `p.Checksum` is modelled by returning the
updated packet together with the byte slice.  (For `p.length < 16` the Go
code would panic while slicing; every packet the repository serializes is
built by `NewPacket` and has `length = 16 + len(payload)`.) -/
def Packet.Serialize (p : Packet) : Packet × List Nat :=
  let b0 := p.version % 16 * 16 + p.ptype % 16
  let payloadLen := p.length - PACKET_HEADER_SIZE
  let payloadBytes := p.payload.take payloadLen ++ List.replicate (payloadLen - p.payload.length) 0
  let header12 : List Nat :=
    [b0, p.flags % 256,
     p.length / 256 % 256, p.length % 256,
     p.seqNum / 16777216 % 256, p.seqNum / 65536 % 256, p.seqNum / 256 % 256, p.seqNum % 256,
     p.ackNum / 16777216 % 256, p.ackNum / 65536 % 256, p.ackNum / 256 % 256, p.ackNum % 256]
  let ck := calculateChecksum header12 payloadBytes
  ({ p with checksum := ck },
   header12 ++ [ck / 16777216 % 256, ck / 65536 % 256, ck / 256 % 256, ck % 256] ++ payloadBytes)

deriving instance DecidableEq for Except

/-- The four failure cases of `DeserializePacket`, in the order the Go code
raises them. -/
inductive DecodeError where
  | tooShort
  | lengthMismatch
  | unsupportedVersion
  | checksumMismatch
deriving DecidableEq

/-- `DeserializePacket`.  Matching sixteen leading bytes embeds the
`len(data) < PACKET_HEADER_SIZE` guard; the validation checks then run in
the source's order: declared-length mismatch, unsupported version, checksum
mismatch.  The payload is the remainder of the slice (`data[16:]`), which
after the length check is exactly `Length - 16` bytes. -/
def DeserializePacket : List Nat → Except DecodeError Packet
  | b0 :: b1 :: l0 :: l1 :: s0 :: s1 :: s2 :: s3 :: a0 :: a1 :: a2 :: a3 :: c0 :: c1 :: c2 :: c3 :: rest =>
    let version := b0 % 256 / 16
    let ptype := b0 % 16
    let flags := b1 % 256
    let length := be16 l0 l1
    let seqNum := word32 s0 s1 s2 s3
    let ackNum := word32 a0 a1 a2 a3
    let checksum := word32 c0 c1 c2 c3
    if length ≠ 16 + rest.length then Except.error DecodeError.lengthMismatch
    else if version ≠ PROTOCOL_VERSION then Except.error DecodeError.unsupportedVersion
    else if checksum ≠ calculateChecksum [b0, b1, l0, l1, s0, s1, s2, s3, a0, a1, a2, a3] rest
    then Except.error DecodeError.checksumMismatch
    else Except.ok { version := version, ptype := ptype, flags := flags, length := length,
                     seqNum := seqNum, ackNum := ackNum, checksum := checksum, payload := rest }
  | _ => Except.error DecodeError.tooShort

/-! ## Association-list maps

Go's `map[uint32]...` values are modelled as association lists with unique
keys: `mapInsert` replaces an existing binding in place, `mapErase` removes
it.  Only lookup, insertion, deletion, length and iteration are used by the
source, so an association list is an adequate (iteration-order-deterministic)
model of the map. -/

def mapLookup {α : Type} : List (Nat × α) → Nat → Option α
  | [], _ => none
  | (k', v) :: rest, k => if k' = k then some v else mapLookup rest k

def mapInsert {α : Type} : List (Nat × α) → Nat → α → List (Nat × α)
  | [], k, v => [(k, v)]
  | (k', v') :: rest, k, v =>
    if k' = k then (k, v) :: rest else (k', v') :: mapInsert rest k v

def mapErase {α : Type} : List (Nat × α) → Nat → List (Nat × α)
  | [], _ => []
  | (k', v) :: rest, k => if k' = k then rest else (k', v) :: mapErase rest k

/-! ## The lock-protected reliability engine (reliability.go) -/

/-- `UnackedPacket`: a sent DATA packet with its send timestamp (nanoseconds)
and retry count. -/
structure UnackedPacket where
  packet : Packet
  sentTime : Nat
  retryCount : Nat
deriving DecidableEq

/-- The `ReliabilityLayer` struct.  The mutexes guard concurrent access in Go
and have no sequential content; every other field is carried.  Durations are
nanosecond counts. -/
structure ReliabilityLayer where
  nextSeqNum : Nat
  unackedPackets : List (Nat × UnackedPacket)
  receivedSeqs : List Nat
  orderingBuffer : List (Nat × Packet)
  nextExpectedSeq : Nat
  windowSize : Nat
  congestionWindow : Nat
  ssthresh : Nat
  rttSamples : List Nat
  averageRTT : Nat
  retransmissionTimeout : Nat
  maxBufferSize : Nat
deriving DecidableEq

/-- `NewReliabilityLayer`: the initial state (100 ms initial RTT estimate,
1 s retransmission timeout, in nanoseconds). -/
def NewReliabilityLayer : ReliabilityLayer :=
  { nextSeqNum := 1
    unackedPackets := []
    receivedSeqs := []
    orderingBuffer := []
    nextExpectedSeq := 1
    windowSize := 32
    congestionWindow := 1
    ssthresh := 32
    rttSamples := []
    averageRTT := 100000000
    retransmissionTimeout := 1000000000
    maxBufferSize := 1000 }

/-- `GetNextSeqNum`: returns the current counter and increments it
(`uint32`, wrapping). -/
def ReliabilityLayer.GetNextSeqNum (r : ReliabilityLayer) : Nat × ReliabilityLayer :=
  (r.nextSeqNum, { r with nextSeqNum := (r.nextSeqNum + 1) % 4294967296 })

/-- `SendPacketWithTimestamp`: only DATA packets are recorded (retry count
zero); control packets are a no-op. -/
def ReliabilityLayer.SendPacketWithTimestamp
    (r : ReliabilityLayer) (packet : Packet) (timestamp : Nat) : ReliabilityLayer :=
  if packet.IsDataPacket then
    let entry : UnackedPacket := { packet := packet, sentTime := timestamp, retryCount := 0 }
    { r with unackedPackets := mapInsert r.unackedPackets packet.seqNum entry }
  else r

/-- `HasUnackedPacket`. -/
def ReliabilityLayer.HasUnackedPacket (r : ReliabilityLayer) (seqNum : Nat) : Bool :=
  (mapLookup r.unackedPackets seqNum).isSome

/-- `updateRTT`: append the sample, keep the last 10 samples, recompute the
plain average, and set the retransmission timeout to twice the average
clamped to [100 ms, 5 s]. -/
def ReliabilityLayer.updateRTT (r : ReliabilityLayer) (sample : Nat) : ReliabilityLayer :=
  let samples := r.rttSamples ++ [sample]
  let samples := if samples.length > 10 then samples.drop 1 else samples
  let averageRTT := samples.sum / samples.length
  let rto := averageRTT * 2
  let rto := if rto < 100000000 then 100000000 else rto
  let rto := if rto > 5000000000 then 5000000000 else rto
  { r with rttSamples := samples, averageRTT := averageRTT, retransmissionTimeout := rto }

/-- `handleSuccessfulAck`: slow start below `ssthresh` increments the window
by 1; otherwise the window grows by the integer quotient `1 / cwnd`
(`uint32` arithmetic, wrapping). -/
def ReliabilityLayer.handleSuccessfulAck (r : ReliabilityLayer) : ReliabilityLayer :=
  if r.congestionWindow < r.ssthresh then
    { r with congestionWindow := (r.congestionWindow + 1) % 4294967296 }
  else if r.congestionWindow > 0 then
    { r with congestionWindow := (r.congestionWindow + 1 / r.congestionWindow) % 4294967296 }
  else r

/-- `SimulatePacketLoss`: multiplicative decrease with a floor of 1. -/
def ReliabilityLayer.SimulatePacketLoss (r : ReliabilityLayer) : ReliabilityLayer :=
  let ssthresh := r.congestionWindow / 2
  let ssthresh := if ssthresh < 1 then 1 else ssthresh
  { r with ssthresh := ssthresh, congestionWindow := ssthresh }

/-- `HandleAck` at time `now` (Go reads `time.Now()` through `time.Since`).
Non-ACK packets are an error; a missing entry is an error when the
acknowledged sequence number exceeds `nextSeqNum` and a silent success
otherwise; a present entry updates the RTT estimate, is removed, and feeds
congestion control.  `AckNum - 1` is `uint32` subtraction. -/
def ReliabilityLayer.HandleAck
    (r : ReliabilityLayer) (ackPacket : Packet) (now : Nat) :
    Except String Unit × ReliabilityLayer :=
  if !ackPacket.HasAck then (Except.error "packet is not an acknowledgment", r)
  else
    let seqNum := (ackPacket.ackNum + 4294967295) % 4294967296
    match mapLookup r.unackedPackets seqNum with
    | none =>
      if seqNum > r.nextSeqNum then (Except.error "ACK for future packet", r)
      else (Except.ok (), r)
    | some unackedPacket =>
      let rtt := now - unackedPacket.sentTime
      let r := r.updateRTT rtt
      let r := { r with unackedPackets := mapErase r.unackedPackets seqNum }
      let r := r.handleSuccessfulAck
      (Except.ok (), r)

/-- `GetTimedOutPackets` at time `now`: a read-only scan returning every
tracked packet strictly older than the retransmission timeout.  The Go
function holds only a read lock and mutates nothing. -/
def ReliabilityLayer.GetTimedOutPackets (r : ReliabilityLayer) (now : Nat) : List Packet :=
  (r.unackedPackets.filter
      (fun kv => now - kv.2.sentTime > r.retransmissionTimeout)).map
    (fun kv => kv.2.packet)

/-- `IsPacketDuplicate`. -/
def ReliabilityLayer.IsPacketDuplicate (r : ReliabilityLayer) (packet : Packet) : Bool :=
  r.receivedSeqs.contains packet.seqNum

/-- `MarkPacketReceived` (the map-of-bool is a set; only reached for fresh
sequence numbers). -/
def ReliabilityLayer.MarkPacketReceived (r : ReliabilityLayer) (packet : Packet) : ReliabilityLayer :=
  { r with receivedSeqs := r.receivedSeqs ++ [packet.seqNum] }

/-- `ReceivePacket`: buffer-overflow check first, then duplicate suppression,
then mark-received and buffer insertion. -/
def ReliabilityLayer.ReceivePacket
    (r : ReliabilityLayer) (packet : Packet) : Except String Unit × ReliabilityLayer :=
  if r.orderingBuffer.length ≥ r.maxBufferSize then
    (Except.error "receive buffer overflow", r)
  else if r.IsPacketDuplicate packet then (Except.ok (), r)
  else
    let r := r.MarkPacketReceived packet
    let r := { r with orderingBuffer := mapInsert r.orderingBuffer packet.seqNum packet }
    (Except.ok (), r)

/-- The drain loop of `GetOrderedPackets`: starting at `nextExpectedSeq`,
pop consecutive buffered packets.  Each iteration deletes one buffer entry,
so the initial buffer length is enough fuel to run the loop to its exit
condition; `nextExpectedSeq++` is `uint32` increment. -/
def drainOrdered : Nat → Nat → List (Nat × Packet) → List Packet × Nat × List (Nat × Packet)
  | 0, nextSeq, buffer => ([], nextSeq, buffer)
  | fuel + 1, nextSeq, buffer =>
    match mapLookup buffer nextSeq with
    | none => ([], nextSeq, buffer)
    | some packet =>
      let rest := drainOrdered fuel ((nextSeq + 1) % 4294967296) (mapErase buffer nextSeq)
      (packet :: rest.1, rest.2.1, rest.2.2)

/-- `GetOrderedPackets`: drain in-sequence packets and advance
`nextExpectedSeq` past them. -/
def ReliabilityLayer.GetOrderedPackets (r : ReliabilityLayer) : List Packet × ReliabilityLayer :=
  let result := drainOrdered r.orderingBuffer.length r.nextExpectedSeq r.orderingBuffer
  (result.1, { r with nextExpectedSeq := result.2.1, orderingBuffer := result.2.2 })

/-- `SetMaxBufferSize`. -/
def ReliabilityLayer.SetMaxBufferSize (r : ReliabilityLayer) (size : Nat) : ReliabilityLayer :=
  { r with maxBufferSize := size }

/-- `SetRetransmissionTimeout`. -/
def ReliabilityLayer.SetRetransmissionTimeout (r : ReliabilityLayer) (timeout : Nat) : ReliabilityLayer :=
  { r with retransmissionTimeout := timeout }

/-! ## The lock-free reliability engine (lockfree_reliability.go)

The sequential behaviour of the atomic operations is modelled directly
(every compare-and-swap loop succeeds on its first attempt in a sequential
execution).  The open-addressed `LockFreeHashTable` of 16384 buckets keeps at
most one entry per bucket index `key & 16383`; it is modelled as an
association list keyed by the bucket index.  The Michael-Scott `LockFreeQueue`
is unbounded (its constructor ignores the capacity argument) and is modelled
as a FIFO list.  The `LockFreeRingBuffer` field is allocated but unused by
the operations below (`GetOrderedPackets` carries a TODO and drains the
queue in arrival order), so it is not carried in the state. -/

/-- `UnackedEntry` of the lock-free layer. -/
structure UnackedEntry where
  packet : Packet
  sendTime : Nat
  retryCount : Nat
deriving DecidableEq

/-- The bucket mask of the 16384-slot `LockFreeHashTable`. -/
def tableMask : Nat := 16383

/-- `LockFreeHashTable.Insert`: fails when the bucket `key & mask` is
occupied (by any key), otherwise claims it. -/
def LFInsert (t : List (Nat × UnackedEntry)) (key : Nat) (v : UnackedEntry) :
    Bool × List (Nat × UnackedEntry) :=
  let hash := key &&& tableMask
  match mapLookup t hash with
  | some _ => (false, t)
  | none => (true, mapInsert t hash v)

/-- `LockFreeHashTable.Remove`: empties the bucket `key & mask` and returns
its entry. -/
def LFRemove (t : List (Nat × UnackedEntry)) (key : Nat) :
    Option UnackedEntry × List (Nat × UnackedEntry) :=
  let hash := key &&& tableMask
  match mapLookup t hash with
  | none => (none, t)
  | some v => (some v, mapErase t hash)

/-- The `LockFreeReliabilityLayer` struct (counters and scalar configuration
are atomics in Go; nanosecond durations). -/
structure LockFreeReliabilityLayer where
  nextSeqNum : Nat
  unackedTable : List (Nat × UnackedEntry)
  recvQueue : List Packet
  windowSize : Nat
  congWindow : Nat
  rttEstimate : Nat
  timeoutBase : Nat
  packetsSent : Nat
  packetsRecv : Nat
  packetsLost : Nat
  packetsRetr : Nat
deriving DecidableEq

/-- `NewLockFreeReliabilityLayer`: 100 ms initial RTT estimate, 1 s base
timeout. -/
def NewLockFreeReliabilityLayer : LockFreeReliabilityLayer :=
  { nextSeqNum := 1
    unackedTable := []
    recvQueue := []
    windowSize := 32
    congWindow := 1
    rttEstimate := 100000000
    timeoutBase := 1000000000
    packetsSent := 0
    packetsRecv := 0
    packetsLost := 0
    packetsRetr := 0 }

/-- `updateRTTAtomic`: exponential weighted moving average
`newRTT = (oldRTT*7 + sample) / 8` in `uint64` arithmetic, then
`timeoutBase = clamp(newRTT * 4, 100 ms, 5 s)`. -/
def LockFreeReliabilityLayer.updateRTTAtomic
    (rf : LockFreeReliabilityLayer) (sampleRTT : Nat) : LockFreeReliabilityLayer :=
  let newRTT := (rf.rttEstimate * 7 + sampleRTT) % 18446744073709551616 / 8
  let newTimeout := newRTT * 4 % 18446744073709551616
  let newTimeout := if newTimeout < 100000000 then 100000000 else newTimeout
  let newTimeout := if newTimeout > 5000000000 then 5000000000 else newTimeout
  { rf with rttEstimate := newRTT, timeoutBase := newTimeout }

/-- `updateCongestionWindow`.  On success: slow start below
`windowSize / 2`, otherwise the integer-quotient increment `1 / oldWindow`,
then a cap at `windowSize` (the success branch always has
`oldWindow ≥ windowSize/2 = 16 > 0`, so Go's `1 / oldWindow` cannot divide
by zero there).  On loss: halve with a floor of 1. -/
def LockFreeReliabilityLayer.updateCongestionWindow
    (rf : LockFreeReliabilityLayer) (success : Bool) : LockFreeReliabilityLayer :=
  if success then
    let oldWindow := rf.congWindow
    let newWindow :=
      if oldWindow < rf.windowSize / 2 then (oldWindow + 1) % 4294967296
      else (oldWindow + 1 / oldWindow) % 4294967296
    let newWindow := if newWindow > rf.windowSize then rf.windowSize else newWindow
    { rf with congWindow := newWindow }
  else
    let newWindow := rf.congWindow / 2
    let newWindow := if newWindow < 1 then 1 else newWindow
    { rf with congWindow := newWindow }

/-- Lock-free `SendPacket` at time `now`: non-DATA packets are not tracked;
DATA packets are inserted into the open-addressed table, counting a send on
success. -/
def LockFreeReliabilityLayer.SendPacket
    (rf : LockFreeReliabilityLayer) (packet : Packet) (now : Nat) :
    Bool × LockFreeReliabilityLayer :=
  if !packet.IsDataPacket then (true, rf)
  else
    let ins := LFInsert rf.unackedTable packet.seqNum
      { packet := packet, sendTime := now, retryCount := 0 }
    if ins.1 then
      (true, { rf with unackedTable := ins.2, packetsSent := rf.packetsSent + 1 })
    else (false, rf)

/-- Lock-free `HandleAck` at time `now`. -/
def LockFreeReliabilityLayer.HandleAck
    (rf : LockFreeReliabilityLayer) (ackPacket : Packet) (now : Nat) :
    Bool × LockFreeReliabilityLayer :=
  if !ackPacket.HasAck then (false, rf)
  else
    let seqNum := (ackPacket.ackNum + 4294967295) % 4294967296
    let rem := LFRemove rf.unackedTable seqNum
    match rem.1 with
    | none => (false, rf)
    | some entry =>
      let rf := { rf with unackedTable := rem.2 }
      let rf := rf.updateRTTAtomic (now - entry.sendTime)
      let rf := rf.updateCongestionWindow true
      (true, rf)

/-- Lock-free `isDuplicate`: the source is an explicit stub that always
reports "not a duplicate" ("For now, assume no duplicates"). -/
def LockFreeReliabilityLayer.isDuplicate
    (rf : LockFreeReliabilityLayer) (seqNum : Nat) : Bool := false

/-- Lock-free `ReceivePacket`: non-DATA packets are ignored; the duplicate
check is the stub above; the packet is enqueued (the unbounded queue's
`Enqueue` always succeeds) and the receive counter incremented.
`markReceived` is an empty TODO in the source and contributes nothing. -/
def LockFreeReliabilityLayer.ReceivePacket
    (rf : LockFreeReliabilityLayer) (packet : Packet) :
    Bool × LockFreeReliabilityLayer :=
  if !packet.IsDataPacket then (true, rf)
  else if rf.isDuplicate packet.seqNum then (false, rf)
  else
    (true, { rf with recvQueue := rf.recvQueue ++ [packet],
                     packetsRecv := rf.packetsRecv + 1 })

/-- Lock-free `GetOrderedPackets`: dequeues everything in FIFO (arrival)
order; the ring-buffer ordering is an unimplemented TODO in the source. -/
def LockFreeReliabilityLayer.GetOrderedPackets
    (rf : LockFreeReliabilityLayer) : List Packet × LockFreeReliabilityLayer :=
  (rf.recvQueue, { rf with recvQueue := [] })

/-- Whether an entry has been unacknowledged for longer than `timeout` at
time `now` (Go compares the `uint64` difference `now - SendTime`, which for
the monotone timestamps the layer stores is the entry's age). -/
def agedOut (now timeout : Nat) (e : UnackedEntry) : Bool :=
  now - e.sendTime > timeout

/-- The in-place refresh the lock-free scan applies to a timed-out entry:
retry count incremented (`uint32`), send time set to the scan time. -/
def refreshEntry (now : Nat) (e : UnackedEntry) : UnackedEntry :=
  { e with retryCount := (e.retryCount + 1) % 4294967296, sendTime := now }

/-- The body of the lock-free timeout scan over the table's buckets: each
timed-out entry is collected and refreshed in place.  Returns the collected
packets, the updated buckets, and the number of timed-out entries. -/
def lfScan (now timeout : Nat) :
    List (Nat × UnackedEntry) → List Packet × List (Nat × UnackedEntry) × Nat
  | [] => ([], [], 0)
  | (k, e) :: rest =>
    let tail := lfScan now timeout rest
    if agedOut now timeout e then
      (e.packet :: tail.1, (k, refreshEntry now e) :: tail.2.1, tail.2.2 + 1)
    else (tail.1, (k, e) :: tail.2.1, tail.2.2)

/-- Lock-free `GetTimedOutPackets` at time `now`: scans the table against
`timeoutBase`, refreshing each timed-out entry as a side effect; each
timed-out entry also counts one retransmission and one congestion-loss
window halving, and the lost-packet counter grows by the number of timed-out
entries (Go adds `len(timedOut)` when it is positive, which is the same
total).  The per-entry window halvings commute with the table updates, so
they are applied as an iterated fold after the scan. -/
def iterateLossHalving : Nat → Nat → Nat
  | 0, w => w
  | n + 1, w =>
    let w := w / 2
    let w := if w < 1 then 1 else w
    iterateLossHalving n w

/-- Lock-free `GetTimedOutPackets` (see `lfScan`). -/
def LockFreeReliabilityLayer.GetTimedOutPackets
    (rf : LockFreeReliabilityLayer) (now : Nat) :
    List Packet × LockFreeReliabilityLayer :=
  let scan := lfScan now rf.timeoutBase rf.unackedTable
  (scan.1,
   { rf with unackedTable := scan.2.1,
             congWindow := iterateLossHalving scan.2.2 rf.congWindow,
             packetsRetr := rf.packetsRetr + scan.2.2,
             packetsLost := rf.packetsLost + scan.2.2 })

/-! ## Spec-side formulas (for the refinement comparisons of the RTT and
RTO claims)

These two definitions follow the specification's words, not the source:
"update smoothed RTT via exponential weighted average with weight 7/8 on the
old value, 1/8 on the new sample" and
"derive `retransmission_timeout = clamp(rtt_estimate × 4, 100ms, 5s)`". -/

/-- Modelled from the spec: the claimed smoothed-RTT update rule. -/
def specSmoothedRTT (old sample : Nat) : Nat := (old * 7 + sample) / 8

/-- Modelled from the spec: the claimed retransmission-timeout derivation. -/
def specRTO (est : Nat) : Nat := min (max (est * 4) 100000000) 5000000000

/-! ## Operation traces over the lock-protected engine

Used to state the exactly-once-delivery invariant: an arbitrary interleaving
of the engine's public operations, with the packets handed to the
application (the results of `GetOrderedPackets`) collected along the way. -/

/-- One invocation of a public operation of the lock-protected engine (the
`time.Now()` reads are explicit arguments). -/
inductive EngineOp where
  | send (packet : Packet) (timestamp : Nat)
  | handleAck (packet : Packet) (now : Nat)
  | receive (packet : Packet)
  | getOrdered
  | getTimedOut (now : Nat)
  | simulateLoss

/-- Apply one operation; the first component is what this call delivered to
the application (nonempty only for `getOrdered`; the timeout scan returns
retransmission candidates, not application data, and mutates nothing). -/
def applyOp (r : ReliabilityLayer) : EngineOp → List Packet × ReliabilityLayer
  | EngineOp.send packet timestamp => ([], r.SendPacketWithTimestamp packet timestamp)
  | EngineOp.handleAck packet now => ([], (r.HandleAck packet now).2)
  | EngineOp.receive packet => ([], (r.ReceivePacket packet).2)
  | EngineOp.getOrdered => r.GetOrderedPackets
  | EngineOp.getTimedOut _ => ([], r)
  | EngineOp.simulateLoss => ([], r.SimulatePacketLoss)

/-- Run a trace of operations, concatenating everything delivered to the
application. -/
def runOps (r : ReliabilityLayer) : List EngineOp → List Packet × ReliabilityLayer
  | [] => ([], r)
  | op :: ops =>
    let step := applyOp r op
    let rest := runOps step.2 ops
    (step.1 ++ rest.1, rest.2)

/-- The ordering buffer's key set. -/
def bufKeys (r : ReliabilityLayer) : List Nat := r.orderingBuffer.map Prod.fst

/-- The well-formedness invariant of the receive path: buffer keys are
unique, every buffered packet is stored under its own sequence number, and
every buffered key has been marked received. -/
def BufWF (r : ReliabilityLayer) : Prop :=
  (r.orderingBuffer.map Prod.fst).Nodup ∧
  (∀ kv ∈ r.orderingBuffer, kv.2.seqNum = kv.1) ∧
  (∀ k ∈ r.orderingBuffer.map Prod.fst, k ∈ r.receivedSeqs)

/-! ## Helper lemmas about the association-list maps -/

theorem mapLookup_eq_none_of_not_mem {α : Type} (m : List (Nat × α)) (k : Nat)
    (h : k ∉ m.map Prod.fst) : mapLookup m k = none := by
  induction m with
  | nil => rfl
  | cons kv rest ih =>
    obtain ⟨k', v⟩ := kv
    simp only [List.map_cons, List.mem_cons] at h
    push_neg at h
    simp only [mapLookup, if_neg (Ne.symm h.1), ih h.2]

theorem mapLookup_mapInsert_self {α : Type} (m : List (Nat × α)) (k : Nat) (v : α) :
    mapLookup (mapInsert m k v) k = some v := by
  induction m with
  | nil => simp [mapInsert, mapLookup]
  | cons kv rest ih =>
    obtain ⟨k', v'⟩ := kv
    by_cases hk : k' = k
    · simp [mapInsert, mapLookup, hk]
    · simp [mapInsert, mapLookup, hk, ih]

theorem mem_map_fst_mapInsert {α : Type} (m : List (Nat × α)) (k : Nat) (v : α) (a : Nat) :
    a ∈ (mapInsert m k v).map Prod.fst ↔ a = k ∨ a ∈ m.map Prod.fst := by
  induction m with
  | nil => simp [mapInsert]
  | cons kv rest ih =>
    obtain ⟨k', v'⟩ := kv
    by_cases hk : k' = k
    · subst hk
      simp [mapInsert]
    · simp only [mapInsert, if_neg hk, List.map_cons, List.mem_cons, ih]
      tauto

theorem mapInsert_keys_nodup {α : Type} (m : List (Nat × α)) (k : Nat) (v : α)
    (h : (m.map Prod.fst).Nodup) : ((mapInsert m k v).map Prod.fst).Nodup := by
  induction m with
  | nil => simp [mapInsert]
  | cons kv rest ih =>
    obtain ⟨k', v'⟩ := kv
    simp only [List.map_cons, List.nodup_cons] at h
    by_cases hk : k' = k
    · subst hk
      simpa [mapInsert] using h
    · simp only [mapInsert, if_neg hk, List.map_cons, List.nodup_cons,
        mem_map_fst_mapInsert]
      exact ⟨by tauto, ih h.2⟩

theorem mapLookup_mapErase_self {α : Type} (m : List (Nat × α)) (k : Nat)
    (h : (m.map Prod.fst).Nodup) : mapLookup (mapErase m k) k = none := by
  induction m with
  | nil => rfl
  | cons kv rest ih =>
    obtain ⟨k', v'⟩ := kv
    simp only [List.map_cons, List.nodup_cons] at h
    by_cases hk : k' = k
    · simp only [mapErase, if_pos hk]
      exact mapLookup_eq_none_of_not_mem rest k (hk ▸ h.1)
    · simp only [mapErase, if_neg hk, mapLookup, if_neg hk]
      exact ih h.2

/-! ## Claim C9: loss backoff -/

/-- C9: in both variants a detected loss performs multiplicative decrease
with a floor of 1: the lock-protected engine sets
`ssthresh = max(1, cwnd/2)` and `cwnd = ssthresh`; the lock-free engine sets
`congWindow = max(1, congWindow/2)`; the post-loss window is never below 1
(hence never zero). -/
theorem c9_loss_backoff (r : ReliabilityLayer) (rf : LockFreeReliabilityLayer) :
    r.SimulatePacketLoss.ssthresh = max 1 (r.congestionWindow / 2) ∧
    r.SimulatePacketLoss.congestionWindow = max 1 (r.congestionWindow / 2) ∧
    (rf.updateCongestionWindow false).congWindow = max 1 (rf.congWindow / 2) ∧
    1 ≤ r.SimulatePacketLoss.congestionWindow ∧
    1 ≤ (rf.updateCongestionWindow false).congWindow := by
  unfold ReliabilityLayer.SimulatePacketLoss LockFreeReliabilityLayer.updateCongestionWindow
  simp only [Bool.false_eq_true, if_false]
  split_ifs <;> simp_all <;> omega

/-! ## Claim C10: ordering-buffer overflow rejection -/

/-- C10: when the ordering buffer already holds `maxBufferSize` (or more)
packets, `ReceivePacket` returns the overflow error for every incoming
packet — duplicates included, since the overflow check precedes duplicate
suppression — and returns the state entirely unchanged (seen-sequence set,
ordering buffer and next-expected-sequence counter included). -/
theorem c10_overflow_rejects_atomically (r : ReliabilityLayer) (p : Packet)
    (h : r.orderingBuffer.length ≥ r.maxBufferSize) :
    r.ReceivePacket p = (Except.error "receive buffer overflow", r) := by
  unfold ReliabilityLayer.ReceivePacket
  rw [if_pos h]

/-- Witness for C10: a layer whose buffer limit was lowered to 1 and which
already buffered sequence 900 rejects the next packet — here a duplicate of
sequence 900, which below capacity would be silently ignored — leaving the
state unchanged. -/
theorem c10_overflow_rejects_atomically_witness :
    (((NewReliabilityLayer.SetMaxBufferSize 1).ReceivePacket
        (NewPacket DATA_PACKET 0 900 0 [7])).2.orderingBuffer.length ≥
      ((NewReliabilityLayer.SetMaxBufferSize 1).ReceivePacket
        (NewPacket DATA_PACKET 0 900 0 [7])).2.maxBufferSize) ∧
    (((NewReliabilityLayer.SetMaxBufferSize 1).ReceivePacket
        (NewPacket DATA_PACKET 0 900 0 [7])).2.ReceivePacket
      (NewPacket DATA_PACKET 0 900 0 [7]) =
      (Except.error "receive buffer overflow",
       ((NewReliabilityLayer.SetMaxBufferSize 1).ReceivePacket
          (NewPacket DATA_PACKET 0 900 0 [7])).2)) := by
  refine ⟨by decide, c10_overflow_rejects_atomically _ _ (by decide)⟩

/-! ## Claim C1: ordered release on a fresh engine (code bug) -/

/-- C1 (evaluation at the failing input): on a freshly created
lock-protected engine, receiving DATA packets 503, 501, 502 and draining
with `GetOrderedPackets` releases NOTHING — the drain starts at
`nextExpectedSeq = 1`, which is never received and never resynchronised, so
the three packets stay buffered forever.  The repository's own
`TestPacketOrdering` expects `[501, 502, 503]` here. -/
theorem c1_fresh_engine_releases_nothing :
    (((NewReliabilityLayer.ReceivePacket
          (NewPacket DATA_PACKET 0 503 0 [3])).2.ReceivePacket
        (NewPacket DATA_PACKET 0 501 0 [1])).2.ReceivePacket
      (NewPacket DATA_PACKET 0 502 0 [2])).2.GetOrderedPackets.1 = ([] : List Packet) ∧
    (((NewReliabilityLayer.ReceivePacket
          (NewPacket DATA_PACKET 0 503 0 [3])).2.ReceivePacket
        (NewPacket DATA_PACKET 0 501 0 [1])).2.ReceivePacket
      (NewPacket DATA_PACKET 0 502 0 [2])).2.orderingBuffer.length = 3 := by
  decide

/-! ## Claim C4: at-most-once delivery in both variants (code bug in the
lock-free variant) -/

/-- C4 (evaluation at the failing input): the lock-free engine's duplicate
check is a stub that always answers `false` and `markReceived` is an empty
TODO, so receiving the same DATA packet (sequence 300) twice enqueues it
twice and `GetOrderedPackets` delivers sequence 300 twice — violating
at-most-once delivery, which the lock-protected variant does guarantee
(see `locked_delivery_at_most_once`). -/
theorem c4_lockfree_duplicate_delivered_twice :
    ((NewLockFreeReliabilityLayer.ReceivePacket
        (NewPacket DATA_PACKET 0 300 0 [9])).2.ReceivePacket
      (NewPacket DATA_PACKET 0 300 0 [9])).2.GetOrderedPackets.1 =
      [NewPacket DATA_PACKET 0 300 0 [9], NewPacket DATA_PACKET 0 300 0 [9]] := by
  decide

/-! ## Claim C8: integer-division congestion-avoidance increment -/

/-- C8: in both variants, a successful acknowledgment leaves the congestion
window unchanged once it is at or above the variant's slow-start threshold
(`ssthresh` for the lock-protected engine, `windowSize / 2` for the
lock-free one) and strictly greater than 1, because the integer quotient
`1 / cwnd` is zero; below the threshold it increments the window by exactly
1.  The hypotheses are the `uint32` ranges of the Go fields, plus
`congWindow ≤ windowSize` for the lock-free engine, which its construction
(window 1, size 32) and updates (growth capped at `windowSize`, loss
halving) maintain. -/
theorem c8_congestion_avoidance_noop
    (r : ReliabilityLayer) (rf : LockFreeReliabilityLayer)
    (hr : r.congestionWindow < 4294967296) (hrs : r.ssthresh < 4294967296)
    (hf : rf.congWindow ≤ rf.windowSize) (hfs : rf.windowSize < 4294967296) :
    ((r.ssthresh ≤ r.congestionWindow → 1 < r.congestionWindow →
        r.handleSuccessfulAck.congestionWindow = r.congestionWindow) ∧
      (r.congestionWindow < r.ssthresh →
        r.handleSuccessfulAck.congestionWindow = r.congestionWindow + 1)) ∧
    ((rf.windowSize / 2 ≤ rf.congWindow → 1 < rf.congWindow →
        (rf.updateCongestionWindow true).congWindow = rf.congWindow) ∧
      (rf.congWindow < rf.windowSize / 2 →
        (rf.updateCongestionWindow true).congWindow = rf.congWindow + 1)) := by
  unfold ReliabilityLayer.handleSuccessfulAck LockFreeReliabilityLayer.updateCongestionWindow
  refine ⟨⟨fun hge hgt => ?_, fun hlt => ?_⟩, ⟨fun hge hgt => ?_, fun hlt => ?_⟩⟩
  · have h1 : ¬(r.congestionWindow < r.ssthresh) := by omega
    have h2 : r.congestionWindow > 0 := by omega
    have h3 : 1 / r.congestionWindow = 0 := Nat.div_eq_of_lt hgt
    have h4 : r.congestionWindow % 4294967296 = r.congestionWindow := Nat.mod_eq_of_lt hr
    simp [h1, h2, h3, h4]
  · have h2 : (r.congestionWindow + 1) % 4294967296 = r.congestionWindow + 1 :=
      Nat.mod_eq_of_lt (by omega)
    simp [hlt, h2]
  · have h1 : ¬(rf.congWindow < rf.windowSize / 2) := by omega
    have h2 : 1 / rf.congWindow = 0 := Nat.div_eq_of_lt hgt
    have h3 : rf.congWindow % 4294967296 = rf.congWindow := Nat.mod_eq_of_lt (by omega)
    have h4 : ¬(rf.congWindow > rf.windowSize) := by omega
    simp [h1, h2, h3, h4]
  · have h2 : (rf.congWindow + 1) % 4294967296 = rf.congWindow + 1 :=
      Nat.mod_eq_of_lt (by omega)
    have h4 : ¬(rf.congWindow + 1 > rf.windowSize) := by omega
    simp [hlt, h2, h4]

/-- Witness for C8: the lock-protected engine with window 32 at threshold 32
keeps window 32 after an acknowledgment, and the fresh lock-free engine in
slow start grows from 1 to 2. -/
theorem c8_congestion_avoidance_noop_witness :
    let r := { NewReliabilityLayer with congestionWindow := 32 }
    (r.congestionWindow < 4294967296 ∧ r.ssthresh < 4294967296 ∧
      NewLockFreeReliabilityLayer.congWindow ≤ NewLockFreeReliabilityLayer.windowSize ∧
      NewLockFreeReliabilityLayer.windowSize < 4294967296) ∧
    (r.ssthresh ≤ r.congestionWindow → 1 < r.congestionWindow →
      r.handleSuccessfulAck.congestionWindow = r.congestionWindow) ∧
    (NewLockFreeReliabilityLayer.congWindow < NewLockFreeReliabilityLayer.windowSize / 2 →
      (NewLockFreeReliabilityLayer.updateCongestionWindow true).congWindow =
        NewLockFreeReliabilityLayer.congWindow + 1) := by
  refine ⟨by decide, ?_, ?_⟩
  · exact (c8_congestion_avoidance_noop { NewReliabilityLayer with congestionWindow := 32 }
      NewLockFreeReliabilityLayer (by decide) (by decide) (by decide) (by decide)).1.1
  · exact (c8_congestion_avoidance_noop { NewReliabilityLayer with congestionWindow := 32 }
      NewLockFreeReliabilityLayer (by decide) (by decide) (by decide) (by decide)).2.2

/-! ## Claim C7: acknowledgment idempotence (corrected) -/

/-- C7 (counterexample): on a fresh engine (`nextSeqNum = 1`) a DATA packet
with sequence 100 is recorded, the first acknowledgment with ack number 101
succeeds, but a second identical acknowledgment is NOT a silent no-op: the
missing entry's sequence 100 exceeds `nextSeqNum = 1`, so `HandleAck`
reports the "ACK for future packet" error — the claim's unconditional
"never an error" is false. -/
theorem c7_second_ack_can_error :
    let p := NewPacket DATA_PACKET 0 100 0 [1]
    let ackPacket := NewPacket ACK_PACKET ACK_FLAG 0 101 []
    let r1 := NewReliabilityLayer.SendPacketWithTimestamp p 0
    let first := r1.HandleAck ackPacket 50
    first.1 = Except.ok () ∧
    first.2.HasUnackedPacket 100 = false ∧
    (first.2.HandleAck ackPacket 60).1 = Except.error "ACK for future packet" := by
  decide

/-- `updateRTT` touches only the RTT fields. -/
theorem updateRTT_unackedPackets (r : ReliabilityLayer) (x : Nat) :
    (r.updateRTT x).unackedPackets = r.unackedPackets := rfl

/-- `updateRTT` preserves the sequence counter. -/
theorem updateRTT_nextSeqNum (r : ReliabilityLayer) (x : Nat) :
    (r.updateRTT x).nextSeqNum = r.nextSeqNum := rfl

/-- `handleSuccessfulAck` touches only the congestion window. -/
theorem handleSuccessfulAck_unackedPackets (r : ReliabilityLayer) :
    r.handleSuccessfulAck.unackedPackets = r.unackedPackets := by
  unfold ReliabilityLayer.handleSuccessfulAck
  split_ifs <;> rfl

/-- `handleSuccessfulAck` preserves the sequence counter. -/
theorem handleSuccessfulAck_nextSeqNum (r : ReliabilityLayer) :
    r.handleSuccessfulAck.nextSeqNum = r.nextSeqNum := by
  unfold ReliabilityLayer.handleSuccessfulAck
  split_ifs <;> rfl

/-- C7 (amended): acknowledging a recorded DATA packet succeeds once and
removes the entry; a second acknowledgment of the same sequence number is a
harmless no-op — success reported, state untouched — PROVIDED the sequence
number does not exceed the engine's `nextSeqNum` counter (true for every
sequence number the engine itself allocated); beyond the counter the
duplicate is reported as an "ACK for future packet" error
(`c7_second_ack_can_error`).  `hkeys` is the unique-keys invariant of the Go
map. -/
theorem c7_ack_idempotent_up_to_counter
    (r : ReliabilityLayer) (p ackPacket : Packet) (t now now2 : Nat)
    (hkeys : (r.unackedPackets.map Prod.fst).Nodup)
    (hdata : p.IsDataPacket = true)
    (hack : ackPacket.HasAck = true)
    (hnum : ackPacket.ackNum = p.seqNum + 1)
    (hseq : p.seqNum + 1 < 4294967296) :
    let r1 := r.SendPacketWithTimestamp p t
    let first := r1.HandleAck ackPacket now
    first.1 = Except.ok () ∧
    mapLookup first.2.unackedPackets p.seqNum = none ∧
    (p.seqNum ≤ r.nextSeqNum →
      first.2.HandleAck ackPacket now2 = (Except.ok (), first.2)) := by
  intro r1 first
  have hsn : (ackPacket.ackNum + 4294967295) % 4294967296 = p.seqNum := by
    rw [hnum]
    omega
  have hr1 : r1.unackedPackets =
      mapInsert r.unackedPackets p.seqNum (UnackedPacket.mk p t 0) := by
    simp [r1, ReliabilityLayer.SendPacketWithTimestamp, hdata]
  have hr1next : r1.nextSeqNum = r.nextSeqNum := by
    simp only [r1, ReliabilityLayer.SendPacketWithTimestamp, hdata, if_true]
  have hlook : mapLookup r1.unackedPackets p.seqNum = some (UnackedPacket.mk p t 0) := by
    rw [hr1]
    exact mapLookup_mapInsert_self _ _ _
  have hfirst1 : first.1 = Except.ok () := by
    simp only [first, ReliabilityLayer.HandleAck, hack, Bool.not_true,
      Bool.false_eq_true, if_false, hsn, hlook]
  have hunacked : first.2.unackedPackets = mapErase r1.unackedPackets p.seqNum := by
    simp only [first, ReliabilityLayer.HandleAck, hack, Bool.not_true,
      Bool.false_eq_true, if_false, hsn, hlook,
      handleSuccessfulAck_unackedPackets, updateRTT_unackedPackets]
  have hnone : mapLookup first.2.unackedPackets p.seqNum = none := by
    rw [hunacked, hr1]
    exact mapLookup_mapErase_self _ _ (mapInsert_keys_nodup _ _ _ hkeys)
  have hnext : first.2.nextSeqNum = r.nextSeqNum := by
    simp only [first, ReliabilityLayer.HandleAck, hack, Bool.not_true,
      Bool.false_eq_true, if_false, hsn, hlook,
      handleSuccessfulAck_nextSeqNum, updateRTT_nextSeqNum, hr1next]
  refine ⟨hfirst1, hnone, fun hle => ?_⟩
  simp only [ReliabilityLayer.HandleAck, hack, Bool.not_true, Bool.false_eq_true,
    if_false, hsn, hnone, hnext]
  rw [if_neg (by omega)]

/-- Witness for C7 (amended): sequence 1 on a fresh engine (whose
`nextSeqNum` is 1): the first acknowledgment removes the entry, the second
is a silent no-op. -/
theorem c7_ack_idempotent_up_to_counter_witness :
    ((NewReliabilityLayer.unackedPackets.map Prod.fst).Nodup ∧
      (NewPacket DATA_PACKET 0 1 0 [5]).IsDataPacket = true ∧
      (NewPacket ACK_PACKET ACK_FLAG 0 2 []).HasAck = true ∧
      (NewPacket ACK_PACKET ACK_FLAG 0 2 []).ackNum =
        (NewPacket DATA_PACKET 0 1 0 [5]).seqNum + 1 ∧
      (NewPacket DATA_PACKET 0 1 0 [5]).seqNum + 1 < 4294967296) ∧
    (let r1 := NewReliabilityLayer.SendPacketWithTimestamp (NewPacket DATA_PACKET 0 1 0 [5]) 0
     let first := r1.HandleAck (NewPacket ACK_PACKET ACK_FLAG 0 2 []) 50
     first.1 = Except.ok () ∧
     mapLookup first.2.unackedPackets (NewPacket DATA_PACKET 0 1 0 [5]).seqNum = none ∧
     ((NewPacket DATA_PACKET 0 1 0 [5]).seqNum ≤ NewReliabilityLayer.nextSeqNum →
       first.2.HandleAck (NewPacket ACK_PACKET ACK_FLAG 0 2 []) 60 = (Except.ok (), first.2))) :=
  ⟨by decide,
   c7_ack_idempotent_up_to_counter NewReliabilityLayer (NewPacket DATA_PACKET 0 1 0 [5])
     (NewPacket ACK_PACKET ACK_FLAG 0 2 []) 0 50 60
     (by decide) (by decide) (by decide) (by decide) (by decide)⟩

/-! ## Claim C5: timeout scanning (corrected) -/

/-- The packets collected by the lock-free scan are exactly those of the
timed-out entries, in table order. -/
theorem lfScan_packets (now timeout : Nat) (t : List (Nat × UnackedEntry)) :
    (lfScan now timeout t).1 =
      (t.filter (fun kv => agedOut now timeout kv.2)).map (fun kv => kv.2.packet) := by
  induction t with
  | nil => rfl
  | cons kv rest ih =>
    obtain ⟨k, e⟩ := kv
    by_cases h : agedOut now timeout e
    · simp [lfScan, h, ih]
    · simp [lfScan, h, ih]

/-- The lock-free scan rewrites the table in place, refreshing exactly the
timed-out entries. -/
theorem lfScan_table (now timeout : Nat) (t : List (Nat × UnackedEntry)) :
    (lfScan now timeout t).2.1 =
      t.map (fun kv =>
        if agedOut now timeout kv.2 then (kv.1, refreshEntry now kv.2) else kv) := by
  induction t with
  | nil => rfl
  | cons kv rest ih =>
    obtain ⟨k, e⟩ := kv
    by_cases h : agedOut now timeout e
    · simp [lfScan, h, ih]
    · simp [lfScan, h, ih]

/-- C5 (amended): both variants return exactly the tracked entries whose age
exceeds the current retransmission timeout, but only the lock-free variant
refreshes them.  (a) The lock-protected scan returns precisely the packets
of entries older than `retransmissionTimeout` — and, being read-only (it
takes only a read lock and returns no new state), it refreshes neither send
times nor retry counts, so a timed-out packet reappears on every subsequent
scan (`c5_locked_scan_is_read_only`).  (b) The lock-free scan returns
exactly the timed-out entries and refreshes each one's send time to `now`
and retry count by one, in place.  (c) Consequently, in the lock-free
variant an immediately repeated scan returns nothing — an unacknowledged
packet appears once per timeout window, not on every scan. -/
theorem c5_timeout_scan_behaviour :
    (∀ (r : ReliabilityLayer) (now : Nat) (q : Packet),
        q ∈ r.GetTimedOutPackets now ↔
          ∃ kv, kv ∈ r.unackedPackets ∧
            now - kv.2.sentTime > r.retransmissionTimeout ∧ kv.2.packet = q) ∧
    (∀ (rf : LockFreeReliabilityLayer) (now : Nat),
        (rf.GetTimedOutPackets now).1 =
          (rf.unackedTable.filter (fun kv => agedOut now rf.timeoutBase kv.2)).map
            (fun kv => kv.2.packet) ∧
        (rf.GetTimedOutPackets now).2.unackedTable =
          rf.unackedTable.map (fun kv =>
            if agedOut now rf.timeoutBase kv.2 then (kv.1, refreshEntry now kv.2) else kv)) ∧
    (∀ (rf : LockFreeReliabilityLayer) (now : Nat),
        ((rf.GetTimedOutPackets now).2.GetTimedOutPackets now).1 = []) := by
  refine ⟨fun r now q => ?_, fun rf now => ⟨?_, ?_⟩, fun rf now => ?_⟩
  · simp only [ReliabilityLayer.GetTimedOutPackets, List.mem_map, List.mem_filter,
      decide_eq_true_eq]
    constructor
    · rintro ⟨kv, ⟨hmem, hage⟩, hpk⟩
      exact ⟨kv, hmem, hage, hpk⟩
    · rintro ⟨kv, hmem, hage, hpk⟩
      exact ⟨kv, ⟨hmem, hage⟩, hpk⟩
  · simpa only [LockFreeReliabilityLayer.GetTimedOutPackets] using
      lfScan_packets now rf.timeoutBase rf.unackedTable
  · simpa only [LockFreeReliabilityLayer.GetTimedOutPackets] using
      lfScan_table now rf.timeoutBase rf.unackedTable
  · have htab : ((rf.GetTimedOutPackets now).2).unackedTable =
        rf.unackedTable.map (fun kv =>
          if agedOut now rf.timeoutBase kv.2 then (kv.1, refreshEntry now kv.2) else kv) := by
      simpa only [LockFreeReliabilityLayer.GetTimedOutPackets] using
        lfScan_table now rf.timeoutBase rf.unackedTable
    have htb : ((rf.GetTimedOutPackets now).2).timeoutBase = rf.timeoutBase := rfl
    show (lfScan now ((rf.GetTimedOutPackets now).2).timeoutBase
        ((rf.GetTimedOutPackets now).2).unackedTable).1 = []
    rw [htb, htab, lfScan_packets]
    rw [List.map_eq_nil_iff, List.filter_eq_nil_iff]
    intro a ha
    rw [List.mem_map] at ha
    obtain ⟨kv', hmem', rfl⟩ := ha
    by_cases h : agedOut now rf.timeoutBase kv'.2
    · rw [if_pos h]
      simp [agedOut, refreshEntry]
    · rw [if_neg h]
      exact h

/-- C5 (counterexample): the lock-protected scan does not refresh anything —
after one DATA packet (sequence 200) is recorded at time 0 with the default
1 s timeout, the scan at 1.5 s returns the packet, the state still carries
the entry with send time 0 and retry count 0 (the scan returned no new
state to carry), and a second scan immediately afterwards returns the very
same packet again, contradicting "refreshes each returned entry's send
time … so a still-unacknowledged packet appears exactly once per timeout
window". -/
theorem c5_locked_scan_is_read_only :
    let p := NewPacket DATA_PACKET 0 200 0 [2]
    let r1 := NewReliabilityLayer.SendPacketWithTimestamp p 0
    r1.GetTimedOutPackets 1500000000 = [p] ∧
    r1.GetTimedOutPackets 1500000001 = [p] ∧
    mapLookup r1.unackedPackets 200 = some (UnackedPacket.mk p 0 0) := by
  decide

/-! ## Claim C6: RTT estimation and retransmission timeout (corrected) -/

/-- C6 (amended): the two variants use different RTT strategies.  The
lock-free variant matches the claimed formulas: smoothed RTT is the
exponential weighted average with weights 7/8 and 1/8
(`specSmoothedRTT`, overflow-free under the `uint64` bound `hov`), and the
timeout is 4 times the new estimate clamped to [100 ms, 5 s] (`specRTO`).
The lock-protected variant instead keeps a window of the last (at most) 10
samples, sets the estimate to their plain average, and derives the timeout
as 2 times that average clamped to the same bounds. -/
theorem c6_rtt_update_strategies
    (rf : LockFreeReliabilityLayer) (sample : Nat)
    (hov : rf.rttEstimate * 7 + sample < 18446744073709551616)
    (r : ReliabilityLayer) (sample2 : Nat) :
    ((rf.updateRTTAtomic sample).rttEstimate = specSmoothedRTT rf.rttEstimate sample ∧
      (rf.updateRTTAtomic sample).timeoutBase =
        specRTO (specSmoothedRTT rf.rttEstimate sample)) ∧
    ((r.updateRTT sample2).rttSamples =
        (if (r.rttSamples ++ [sample2]).length > 10 then (r.rttSamples ++ [sample2]).drop 1
         else r.rttSamples ++ [sample2]) ∧
      (r.updateRTT sample2).averageRTT =
        (r.updateRTT sample2).rttSamples.sum / (r.updateRTT sample2).rttSamples.length ∧
      (r.updateRTT sample2).retransmissionTimeout =
        min (max ((r.updateRTT sample2).averageRTT * 2) 100000000) 5000000000) := by
  constructor
  · have hmod : (rf.rttEstimate * 7 + sample) % 18446744073709551616 =
        rf.rttEstimate * 7 + sample := Nat.mod_eq_of_lt hov
    have hmod4 : (rf.rttEstimate * 7 + sample) / 8 * 4 % 18446744073709551616 =
        (rf.rttEstimate * 7 + sample) / 8 * 4 := Nat.mod_eq_of_lt (by omega)
    unfold LockFreeReliabilityLayer.updateRTTAtomic specSmoothedRTT specRTO
    simp only [hmod, hmod4]
    refine ⟨trivial, ?_⟩
    split_ifs <;> omega
  · unfold ReliabilityLayer.updateRTT
    refine ⟨rfl, rfl, ?_⟩
    simp only
    split_ifs <;> omega

/-- C6 (counterexample): on the fresh lock-protected engine (initial
estimate 100 ms), an acknowledgment whose measured round trip is 200 ms
yields an estimate of 200 ms — the plain average of the single stored
sample — not the claimed `7/8·100ms + 1/8·200ms = 112.5 ms`, and a timeout
of 400 ms (2× the average), not the claimed `4 × 112.5 ms = 450 ms`. -/
theorem c6_locked_rtt_not_ewma :
    let p := NewPacket DATA_PACKET 0 100 0 [1]
    let r1 := NewReliabilityLayer.SendPacketWithTimestamp p 0
    let ackPacket := NewPacket ACK_PACKET ACK_FLAG 0 101 []
    let r2 := (r1.HandleAck ackPacket 200000000).2
    r2.averageRTT = 200000000 ∧
    specSmoothedRTT 100000000 200000000 = 112500000 ∧
    r2.averageRTT ≠ specSmoothedRTT 100000000 200000000 ∧
    r2.retransmissionTimeout = 400000000 ∧
    specRTO (specSmoothedRTT 100000000 200000000) = 450000000 := by
  decide

/-- Witness for C6 (amended): the fresh lock-free engine (estimate 100 ms)
processing a 200 ms sample lands exactly on the spec's formulas. -/
theorem c6_rtt_update_strategies_witness :
    (NewLockFreeReliabilityLayer.rttEstimate * 7 + 200000000 < 18446744073709551616) ∧
    (((NewLockFreeReliabilityLayer.updateRTTAtomic 200000000).rttEstimate =
        specSmoothedRTT NewLockFreeReliabilityLayer.rttEstimate 200000000 ∧
      (NewLockFreeReliabilityLayer.updateRTTAtomic 200000000).timeoutBase =
        specRTO (specSmoothedRTT NewLockFreeReliabilityLayer.rttEstimate 200000000)) ∧
    ((NewReliabilityLayer.updateRTT 300).rttSamples =
        (if (NewReliabilityLayer.rttSamples ++ [300]).length > 10 then
          (NewReliabilityLayer.rttSamples ++ [300]).drop 1
         else NewReliabilityLayer.rttSamples ++ [300]) ∧
      (NewReliabilityLayer.updateRTT 300).averageRTT =
        (NewReliabilityLayer.updateRTT 300).rttSamples.sum /
          (NewReliabilityLayer.updateRTT 300).rttSamples.length ∧
      (NewReliabilityLayer.updateRTT 300).retransmissionTimeout =
        min (max ((NewReliabilityLayer.updateRTT 300).averageRTT * 2) 100000000)
          5000000000)) :=
  ⟨by decide,
   c6_rtt_update_strategies NewLockFreeReliabilityLayer 200000000 (by decide)
     NewReliabilityLayer 300⟩

/-! ## Claim C3: order of the decode validation checks (corrected) -/

/-- C3 (counterexample): a 16-byte input whose version nibble is 2 (wrong)
AND whose declared length 17 disagrees with the 16-byte slice fails with the
length-mismatch error, not the unsupported-version error the claim
predicts — the length check runs before the version check. -/
theorem c3_wrong_version_and_length_gives_length_error :
    DeserializePacket [33, 0, 0, 17, 0, 0, 0, 0, 0, 0, 0, 0, 0, 0, 0, 0] =
      Except.error DecodeError.lengthMismatch ∧
    DeserializePacket [33, 0, 0, 17, 0, 0, 0, 0, 0, 0, 0, 0, 0, 0, 0, 0] ≠
      Except.error DecodeError.unsupportedVersion ∧
    (33 : Nat) % 256 / 16 ≠ PROTOCOL_VERSION ∧
    be16 0 17 ≠ ([33, 0, 0, 17, 0, 0, 0, 0, 0, 0, 0, 0, 0, 0, 0, 0] : List Nat).length := by
  decide

/-- C3 (amended): `DeserializePacket` evaluates its validation checks in the
order: too-short input first, then declared-length mismatch, then
unsupported protocol version, then checksum mismatch.  In particular, an
input of at least header size whose version field is wrong AND whose
declared length disagrees with the byte-slice length fails with the
length-mismatch error (second conjunct, which ignores the version bytes
entirely), not the unsupported-version error. -/
theorem c3_decode_check_order :
    (∀ data : List Nat, data.length < 16 →
      DeserializePacket data = Except.error DecodeError.tooShort) ∧
    (∀ b0 b1 l0 l1 s0 s1 s2 s3 a0 a1 a2 a3 c0 c1 c2 c3 : Nat, ∀ rest : List Nat,
      be16 l0 l1 ≠ 16 + rest.length →
      DeserializePacket (b0 :: b1 :: l0 :: l1 :: s0 :: s1 :: s2 :: s3 ::
          a0 :: a1 :: a2 :: a3 :: c0 :: c1 :: c2 :: c3 :: rest) =
        Except.error DecodeError.lengthMismatch) ∧
    (∀ b0 b1 l0 l1 s0 s1 s2 s3 a0 a1 a2 a3 c0 c1 c2 c3 : Nat, ∀ rest : List Nat,
      be16 l0 l1 = 16 + rest.length → b0 % 256 / 16 ≠ PROTOCOL_VERSION →
      DeserializePacket (b0 :: b1 :: l0 :: l1 :: s0 :: s1 :: s2 :: s3 ::
          a0 :: a1 :: a2 :: a3 :: c0 :: c1 :: c2 :: c3 :: rest) =
        Except.error DecodeError.unsupportedVersion) ∧
    (∀ b0 b1 l0 l1 s0 s1 s2 s3 a0 a1 a2 a3 c0 c1 c2 c3 : Nat, ∀ rest : List Nat,
      be16 l0 l1 = 16 + rest.length → b0 % 256 / 16 = PROTOCOL_VERSION →
      word32 c0 c1 c2 c3 ≠
        calculateChecksum [b0, b1, l0, l1, s0, s1, s2, s3, a0, a1, a2, a3] rest →
      DeserializePacket (b0 :: b1 :: l0 :: l1 :: s0 :: s1 :: s2 :: s3 ::
          a0 :: a1 :: a2 :: a3 :: c0 :: c1 :: c2 :: c3 :: rest) =
        Except.error DecodeError.checksumMismatch) := by
  refine ⟨fun data h => ?_, fun b0 b1 l0 l1 s0 s1 s2 s3 a0 a1 a2 a3 c0 c1 c2 c3 rest hlen => ?_,
    fun b0 b1 l0 l1 s0 s1 s2 s3 a0 a1 a2 a3 c0 c1 c2 c3 rest hlen hv => ?_,
    fun b0 b1 l0 l1 s0 s1 s2 s3 a0 a1 a2 a3 c0 c1 c2 c3 rest hlen hv hck => ?_⟩
  · rcases data with _ | ⟨b0, _ | ⟨b1, _ | ⟨l0, _ | ⟨l1, _ | ⟨s0, _ | ⟨s1, _ | ⟨s2, _ |
      ⟨s3, _ | ⟨a0, _ | ⟨a1, _ | ⟨a2, _ | ⟨a3, _ | ⟨c0, _ | ⟨c1, _ | ⟨c2, _ |
      ⟨c3, rest⟩⟩⟩⟩⟩⟩⟩⟩⟩⟩⟩⟩⟩⟩⟩⟩
    all_goals try rfl
    simp only [List.length_cons] at h
    omega
  · simp only [DeserializePacket]
    rw [if_pos hlen]
  · simp only [DeserializePacket]
    rw [if_neg (not_not_intro hlen), if_pos hv]
  · simp only [DeserializePacket]
    rw [if_neg (not_not_intro hlen), if_neg (not_not_intro hv), if_pos hck]

/-- Witness for C3 (amended): each of the four error outcomes at a concrete
input, obtained from the ordering theorem: a 1-byte input; a wrong-length
16-byte input; a correct-length input with version nibble 2; a
correct-length version-1 input with a zero checksum field (the recomputed
checksum of that header is nonzero). -/
theorem c3_decode_check_order_witness :
    DeserializePacket [0] = Except.error DecodeError.tooShort ∧
    DeserializePacket (16 :: 0 :: 0 :: 17 :: 0 :: 0 :: 0 :: 0 ::
        0 :: 0 :: 0 :: 0 :: 0 :: 0 :: 0 :: 0 :: []) =
      Except.error DecodeError.lengthMismatch ∧
    DeserializePacket (33 :: 0 :: 0 :: 16 :: 0 :: 0 :: 0 :: 0 ::
        0 :: 0 :: 0 :: 0 :: 0 :: 0 :: 0 :: 0 :: []) =
      Except.error DecodeError.unsupportedVersion ∧
    DeserializePacket (17 :: 0 :: 0 :: 16 :: 0 :: 0 :: 0 :: 0 ::
        0 :: 0 :: 0 :: 0 :: 0 :: 0 :: 0 :: 0 :: []) =
      Except.error DecodeError.checksumMismatch :=
  ⟨c3_decode_check_order.1 [0] (by decide),
   c3_decode_check_order.2.1 16 0 0 17 0 0 0 0 0 0 0 0 0 0 0 0 [] (by decide),
   c3_decode_check_order.2.2.1 33 0 0 16 0 0 0 0 0 0 0 0 0 0 0 0 [] (by decide) (by decide),
   c3_decode_check_order.2.2.2 17 0 0 16 0 0 0 0 0 0 0 0 0 0 0 0 [] (by decide) (by decide)
     (by decide)⟩

/-! ## Claim C2: serialize/deserialize round trip -/

/-- The checksum is a `uint32` value. -/
theorem calculateChecksum_lt (header payload : List Nat) :
    calculateChecksum header payload < 4294967296 := by
  unfold calculateChecksum
  omega

/-- Reassembling the four big-endian bytes of a 32-bit value recovers it. -/
theorem word32_of_bytes (m : Nat) (h : m < 4294967296) :
    word32 (m / 16777216 % 256) (m / 65536 % 256) (m / 256 % 256) (m % 256) = m := by
  unfold word32
  omega

/-- Reassembling the two big-endian bytes of a 16-bit value recovers it. -/
theorem be16_of_bytes (m : Nat) (h : m < 65536) :
    be16 (m / 256 % 256) (m % 256) = m := by
  unfold be16
  omega

/-- C2: deserializing the serialization of a freshly constructed packet
succeeds and returns the packet exactly as `Serialize` left it (version,
type, flags, length, sequence number, acknowledgment number, the computed
checksum, payload), with the stored payload being the input truncated to
1400 bytes.  The hypotheses are the Go argument types' ranges
(`flags : uint8`, `seqNum ackNum : uint32`) together with the validity bound
`t < 16` of the 4-bit wire type field, satisfied by all five defined packet
types. -/
theorem c2_roundtrip (t f s a : Nat) (pl : List Nat)
    (ht : t < 16) (hf : f < 256) (hs : s < 4294967296) (ha : a < 4294967296) :
    DeserializePacket ((NewPacket t f s a pl).Serialize).2 =
      Except.ok ((NewPacket t f s a pl).Serialize).1 ∧
    ((NewPacket t f s a pl).Serialize).1.payload = pl.take 1400 := by
  refine ⟨?_, rfl⟩
  simp only [NewPacket, Packet.Serialize, PROTOCOL_VERSION, PACKET_HEADER_SIZE,
    MAX_PAYLOAD_SIZE]
  have h14 : (pl.take 1400).length ≤ 1400 := by
    simp [List.length_take]
  have hmod : (16 + (pl.take 1400).length) % 65536 = 16 + (pl.take 1400).length :=
    Nat.mod_eq_of_lt (by omega)
  simp only [hmod, Nat.add_sub_cancel_left, Nat.sub_self, List.take_length,
    List.replicate_zero, List.append_nil, List.cons_append, List.nil_append]
  simp only [DeserializePacket]
  have hb0v : (1 % 16 * 16 + t % 16) % 256 / 16 = 1 := by omega
  have hb0t : (1 % 16 * 16 + t % 16) % 16 = t := by omega
  have hbe : be16 ((16 + (pl.take 1400).length) / 256 % 256)
      ((16 + (pl.take 1400).length) % 256) = 16 + (pl.take 1400).length := by
    unfold be16
    omega
  have hflags : f % 256 % 256 = f := by omega
  have hws : word32 (s / 16777216 % 256) (s / 65536 % 256) (s / 256 % 256) (s % 256) = s :=
    word32_of_bytes s hs
  have hwa : word32 (a / 16777216 % 256) (a / 65536 % 256) (a / 256 % 256) (a % 256) = a :=
    word32_of_bytes a ha
  simp only [hb0v, hb0t, hbe, hflags, hws, hwa,
    word32_of_bytes _ (calculateChecksum_lt _ _)]
  simp [PROTOCOL_VERSION]

/-- Witness for C2: the round trip at a concrete DATA packet with payload
"test". -/
theorem c2_roundtrip_witness :
    ((1 : Nat) < 16 ∧ (0 : Nat) < 256 ∧ (1000 : Nat) < 4294967296 ∧
      (2000 : Nat) < 4294967296) ∧
    (DeserializePacket ((NewPacket 1 0 1000 2000 [116, 101, 115, 116]).Serialize).2 =
        Except.ok ((NewPacket 1 0 1000 2000 [116, 101, 115, 116]).Serialize).1 ∧
      ((NewPacket 1 0 1000 2000 [116, 101, 115, 116]).Serialize).1.payload =
        [116, 101, 115, 116].take 1400) :=
  ⟨by decide,
   c2_roundtrip 1 0 1000 2000 [116, 101, 115, 116]
     (by decide) (by decide) (by decide) (by decide)⟩

/-! ## Exactly-once delivery by the lock-protected engine (supports C4)

The lock-protected engine delivers each sequence number to the application
at most once, over every trace of public operations from the initial state.
(The lock-free engine violates this; see
`c4_lockfree_duplicate_delivered_twice`.) -/

theorem mapLookup_some_mem {α : Type} (m : List (Nat × α)) (k : Nat) (v : α)
    (h : mapLookup m k = some v) : (k, v) ∈ m := by
  induction m with
  | nil => exact absurd h (by simp [mapLookup])
  | cons kv rest ih =>
    obtain ⟨k', v'⟩ := kv
    simp only [mapLookup] at h
    split at h
    · rename_i hk
      injection h with hv
      subst hk hv
      exact List.mem_cons_self _ _
    · exact List.mem_cons_of_mem _ (ih h)

theorem mem_of_mem_mapErase {α : Type} (m : List (Nat × α)) (k : Nat) (kv : Nat × α)
    (h : kv ∈ mapErase m k) : kv ∈ m := by
  induction m with
  | nil => simpa [mapErase] using h
  | cons kv' rest ih =>
    obtain ⟨k', v'⟩ := kv'
    simp only [mapErase] at h
    split at h
    · exact List.mem_cons_of_mem _ h
    · rw [List.mem_cons] at h
      rcases h with h | h
      · rw [h]
        exact List.mem_cons_self _ _
      · exact List.mem_cons_of_mem _ (ih h)

theorem map_fst_mapErase_sub {α : Type} (m : List (Nat × α)) (k x : Nat)
    (h : x ∈ (mapErase m k).map Prod.fst) : x ∈ m.map Prod.fst := by
  rw [List.mem_map] at h ⊢
  obtain ⟨kv, hkv, rfl⟩ := h
  exact ⟨kv, mem_of_mem_mapErase m k kv hkv, rfl⟩

theorem mapErase_keys_nodup {α : Type} (m : List (Nat × α)) (k : Nat)
    (h : (m.map Prod.fst).Nodup) : ((mapErase m k).map Prod.fst).Nodup := by
  induction m with
  | nil => simp [mapErase]
  | cons kv rest ih =>
    obtain ⟨k', v'⟩ := kv
    simp only [List.map_cons, List.nodup_cons] at h
    simp only [mapErase]
    split
    · exact h.2
    · simp only [List.map_cons, List.nodup_cons]
      exact ⟨fun hmem => h.1 (map_fst_mapErase_sub rest k k' hmem), ih h.2⟩

theorem not_mem_keys_mapErase_self {α : Type} (m : List (Nat × α)) (k : Nat)
    (h : (m.map Prod.fst).Nodup) : k ∉ (mapErase m k).map Prod.fst := by
  induction m with
  | nil => simp [mapErase]
  | cons kv rest ih =>
    obtain ⟨k', v'⟩ := kv
    simp only [List.map_cons, List.nodup_cons] at h
    simp only [mapErase]
    split
    · rename_i hk
      exact hk ▸ h.1
    · rename_i hk
      simp only [List.map_cons, List.mem_cons]
      push_neg
      exact ⟨fun he => hk he.symm, ih h.2⟩

theorem mem_of_mem_mapInsert {α : Type} (m : List (Nat × α)) (k : Nat) (v : α)
    (kv : Nat × α) (h : kv ∈ mapInsert m k v) : kv = (k, v) ∨ kv ∈ m := by
  induction m with
  | nil =>
    left
    simpa [mapInsert] using h
  | cons kv' rest ih =>
    obtain ⟨k', v'⟩ := kv'
    simp only [mapInsert] at h
    split at h
    · rw [List.mem_cons] at h
      rcases h with h | h
      · exact Or.inl h
      · exact Or.inr (List.mem_cons_of_mem _ h)
    · rw [List.mem_cons] at h
      rcases h with h | h
      · exact Or.inr (h ▸ List.mem_cons_self _ _)
      · rcases ih h with h' | h'
        · exact Or.inl h'
        · exact Or.inr (List.mem_cons_of_mem _ h')

/-- `SendPacketWithTimestamp` never touches the receive path. -/
theorem SendPacketWithTimestamp_orderingBuffer (r : ReliabilityLayer) (p : Packet) (t' : Nat) :
    (r.SendPacketWithTimestamp p t').orderingBuffer = r.orderingBuffer := by
  unfold ReliabilityLayer.SendPacketWithTimestamp
  split <;> rfl

/-- `SendPacketWithTimestamp` never touches the seen-sequence set. -/
theorem SendPacketWithTimestamp_receivedSeqs (r : ReliabilityLayer) (p : Packet) (t' : Nat) :
    (r.SendPacketWithTimestamp p t').receivedSeqs = r.receivedSeqs := by
  unfold ReliabilityLayer.SendPacketWithTimestamp
  split <;> rfl

/-- `handleSuccessfulAck` never touches the receive path. -/
theorem handleSuccessfulAck_orderingBuffer (r : ReliabilityLayer) :
    r.handleSuccessfulAck.orderingBuffer = r.orderingBuffer := by
  unfold ReliabilityLayer.handleSuccessfulAck
  split_ifs <;> rfl

/-- `handleSuccessfulAck` never touches the seen-sequence set. -/
theorem handleSuccessfulAck_receivedSeqs (r : ReliabilityLayer) :
    r.handleSuccessfulAck.receivedSeqs = r.receivedSeqs := by
  unfold ReliabilityLayer.handleSuccessfulAck
  split_ifs <;> rfl

/-- `updateRTT` never touches the receive path. -/
theorem updateRTT_orderingBuffer (r : ReliabilityLayer) (x : Nat) :
    (r.updateRTT x).orderingBuffer = r.orderingBuffer := rfl

/-- `updateRTT` never touches the seen-sequence set. -/
theorem updateRTT_receivedSeqs (r : ReliabilityLayer) (x : Nat) :
    (r.updateRTT x).receivedSeqs = r.receivedSeqs := rfl

/-- `HandleAck` never touches the receive path. -/
theorem HandleAck_orderingBuffer (r : ReliabilityLayer) (p : Packet) (now : Nat) :
    (r.HandleAck p now).2.orderingBuffer = r.orderingBuffer := by
  unfold ReliabilityLayer.HandleAck
  split
  · rfl
  · cases hl : mapLookup r.unackedPackets ((p.ackNum + 4294967295) % 4294967296) with
    | none =>
      simp only [hl]
      split <;> rfl
    | some u =>
      simp [hl, handleSuccessfulAck_orderingBuffer, updateRTT_orderingBuffer]

/-- `HandleAck` never touches the seen-sequence set. -/
theorem HandleAck_receivedSeqs (r : ReliabilityLayer) (p : Packet) (now : Nat) :
    (r.HandleAck p now).2.receivedSeqs = r.receivedSeqs := by
  unfold ReliabilityLayer.HandleAck
  split
  · rfl
  · cases hl : mapLookup r.unackedPackets ((p.ackNum + 4294967295) % 4294967296) with
    | none =>
      simp only [hl]
      split <;> rfl
    | some u =>
      simp [hl, handleSuccessfulAck_receivedSeqs, updateRTT_receivedSeqs]

/-- What `ReceivePacket` does to the receive path: either the state is
returned unchanged (overflow or duplicate), or the fresh sequence number is
appended to the seen set and the packet stored under its own sequence
number. -/
theorem ReceivePacket_spec (r : ReliabilityLayer) (p : Packet) :
    (r.ReceivePacket p).2 = r ∨
    ((r.ReceivePacket p).2.orderingBuffer = mapInsert r.orderingBuffer p.seqNum p ∧
      (r.ReceivePacket p).2.receivedSeqs = r.receivedSeqs ++ [p.seqNum] ∧
      p.seqNum ∉ r.receivedSeqs) := by
  unfold ReliabilityLayer.ReceivePacket
  split
  · exact Or.inl rfl
  · split
    · exact Or.inl rfl
    · rename_i hover hdup
      refine Or.inr ⟨rfl, rfl, ?_⟩
      simpa [ReliabilityLayer.IsPacketDuplicate] using hdup

/-- The drain loop delivers pairwise-distinct sequence numbers, all of them
former buffer keys; it leaves a sub-buffer with the same invariants whose
keys are disjoint from everything delivered. -/
theorem drainOrdered_spec (fuel : Nat) :
    ∀ (nextSeq : Nat) (buffer : List (Nat × Packet)),
      (buffer.map Prod.fst).Nodup →
      (∀ kv ∈ buffer, kv.2.seqNum = kv.1) →
      ((drainOrdered fuel nextSeq buffer).1.map Packet.seqNum).Nodup ∧
      (∀ x ∈ (drainOrdered fuel nextSeq buffer).1.map Packet.seqNum,
        x ∈ buffer.map Prod.fst) ∧
      (((drainOrdered fuel nextSeq buffer).2.2.map Prod.fst).Nodup ∧
        (∀ kv ∈ (drainOrdered fuel nextSeq buffer).2.2, kv.2.seqNum = kv.1) ∧
        (∀ k ∈ (drainOrdered fuel nextSeq buffer).2.2.map Prod.fst,
          k ∈ buffer.map Prod.fst)) ∧
      (∀ x ∈ (drainOrdered fuel nextSeq buffer).1.map Packet.seqNum,
        x ∉ (drainOrdered fuel nextSeq buffer).2.2.map Prod.fst) := by
  induction fuel with
  | zero =>
    intro nextSeq buffer hnd hsk
    simp only [drainOrdered]
    exact ⟨List.nodup_nil, by simp, ⟨hnd, hsk, fun k hk => hk⟩, by simp⟩
  | succ fuel ih =>
    intro nextSeq buffer hnd hsk
    simp only [drainOrdered]
    cases hl : mapLookup buffer nextSeq with
    | none =>
      simp only [hl]
      exact ⟨List.nodup_nil, by simp, ⟨hnd, hsk, fun k hk => hk⟩, by simp⟩
    | some q =>
      simp only [hl]
      have hqmem : (nextSeq, q) ∈ buffer := mapLookup_some_mem buffer nextSeq q hl
      have hqs : q.seqNum = nextSeq := hsk (nextSeq, q) hqmem
      have hqk : nextSeq ∈ buffer.map Prod.fst := List.mem_map.mpr ⟨(nextSeq, q), hqmem, rfl⟩
      have hnd' : ((mapErase buffer nextSeq).map Prod.fst).Nodup :=
        mapErase_keys_nodup buffer nextSeq hnd
      have hsk' : ∀ kv ∈ mapErase buffer nextSeq, kv.2.seqNum = kv.1 :=
        fun kv hkv => hsk kv (mem_of_mem_mapErase buffer nextSeq kv hkv)
      obtain ⟨ih1, ih2, ⟨ih3, ih4, ih5⟩, ih6⟩ :=
        ih ((nextSeq + 1) % 4294967296) (mapErase buffer nextSeq) hnd' hsk'
      have hnotself : nextSeq ∉ (mapErase buffer nextSeq).map Prod.fst :=
        not_mem_keys_mapErase_self buffer nextSeq hnd
      refine ⟨?_, ?_, ⟨ih3, ih4, ?_⟩, ?_⟩
      · simp only [List.map_cons, List.nodup_cons]
        refine ⟨?_, ih1⟩
        rw [hqs]
        exact fun hmem => hnotself (ih2 nextSeq hmem)
      · simp only [List.map_cons, List.mem_cons]
        rintro x (rfl | hx)
        · exact hqs ▸ hqk
        · exact map_fst_mapErase_sub buffer nextSeq x (ih2 x hx)
      · exact fun k hk => map_fst_mapErase_sub buffer nextSeq k (ih5 k hk)
      · simp only [List.map_cons, List.mem_cons]
        rintro x (rfl | hx)
        · rw [hqs]
          exact fun hmem => hnotself (ih5 _ hmem)
        · exact ih6 x hx

/-- `GetOrderedPackets` preserves the receive-path invariant and delivers
pairwise-distinct sequence numbers drawn from the buffer, none of which
remain buffered afterwards; the seen-sequence set is untouched. -/
theorem GetOrderedPackets_spec (r : ReliabilityLayer) (hwf : BufWF r) :
    BufWF r.GetOrderedPackets.2 ∧
    (r.GetOrderedPackets.1.map Packet.seqNum).Nodup ∧
    (∀ x ∈ r.GetOrderedPackets.1.map Packet.seqNum, x ∈ bufKeys r) ∧
    (∀ x ∈ r.GetOrderedPackets.1.map Packet.seqNum, x ∉ bufKeys r.GetOrderedPackets.2) ∧
    r.GetOrderedPackets.2.receivedSeqs = r.receivedSeqs ∧
    (∀ k ∈ bufKeys r.GetOrderedPackets.2, k ∈ bufKeys r) := by
  obtain ⟨hnd, hsk, hrcv⟩ := hwf
  obtain ⟨d1, d2, ⟨d3, d4, d5⟩, d6⟩ :=
    drainOrdered_spec r.orderingBuffer.length r.nextExpectedSeq r.orderingBuffer hnd hsk
  exact ⟨⟨d3, d4, fun k hk => hrcv k (d5 k hk)⟩, d1, d2, d6, rfl, d5⟩

/-- A step that leaves the ordering buffer and the seen-sequence set
unchanged preserves the delivery invariants and delivers nothing. -/
theorem step_trivial (r r' : ReliabilityLayer) (delivered : List Nat)
    (hb : r'.orderingBuffer = r.orderingBuffer)
    (hrv : r'.receivedSeqs = r.receivedSeqs)
    (hwf : BufWF r) (hnd : delivered.Nodup)
    (hdel : ∀ x ∈ delivered, x ∈ r.receivedSeqs ∧ x ∉ bufKeys r) :
    BufWF r' ∧ (delivered ++ ([] : List Packet).map Packet.seqNum).Nodup ∧
    (∀ x ∈ delivered ++ ([] : List Packet).map Packet.seqNum,
      x ∈ r'.receivedSeqs ∧ x ∉ bufKeys r') := by
  unfold BufWF bufKeys at *
  rw [hb, hrv]
  exact ⟨hwf, by simpa using hnd, by simpa using hdel⟩

/-- Every public operation preserves the delivery invariants: the
well-formed receive path, the distinctness of everything delivered so far,
and the fact that delivered sequence numbers are marked received and no
longer buffered. -/
theorem applyOp_preserves (r : ReliabilityLayer) (op : EngineOp) (delivered : List Nat)
    (hwf : BufWF r) (hnd : delivered.Nodup)
    (hdel : ∀ x ∈ delivered, x ∈ r.receivedSeqs ∧ x ∉ bufKeys r) :
    BufWF (applyOp r op).2 ∧
    (delivered ++ (applyOp r op).1.map Packet.seqNum).Nodup ∧
    (∀ x ∈ delivered ++ (applyOp r op).1.map Packet.seqNum,
      x ∈ (applyOp r op).2.receivedSeqs ∧ x ∉ bufKeys (applyOp r op).2) := by
  cases op with
  | send packet timestamp =>
    exact step_trivial r _ delivered
      (SendPacketWithTimestamp_orderingBuffer r packet timestamp)
      (SendPacketWithTimestamp_receivedSeqs r packet timestamp) hwf hnd hdel
  | handleAck packet now =>
    exact step_trivial r _ delivered
      (HandleAck_orderingBuffer r packet now)
      (HandleAck_receivedSeqs r packet now) hwf hnd hdel
  | getTimedOut now =>
    exact step_trivial r _ delivered rfl rfl hwf hnd hdel
  | simulateLoss =>
    exact step_trivial r _ delivered rfl rfl hwf hnd hdel
  | receive packet =>
    simp only [applyOp]
    rcases ReceivePacket_spec r packet with heq | ⟨hbuf, hrecv, hfresh⟩
    · exact step_trivial r _ delivered (by rw [heq]) (by rw [heq]) hwf hnd hdel
    · obtain ⟨hnd0, hsk0, hrcv0⟩ := hwf
      refine ⟨⟨?_, ?_, ?_⟩, by simpa using hnd, ?_⟩
      · show (((r.ReceivePacket packet).2.orderingBuffer).map Prod.fst).Nodup
        rw [hbuf]
        exact mapInsert_keys_nodup _ _ _ hnd0
      · show ∀ kv ∈ (r.ReceivePacket packet).2.orderingBuffer, kv.2.seqNum = kv.1
        rw [hbuf]
        intro kv hkv
        rcases mem_of_mem_mapInsert _ _ _ kv hkv with h | h
        · rw [h]
        · exact hsk0 kv h
      · show ∀ k ∈ ((r.ReceivePacket packet).2.orderingBuffer).map Prod.fst,
          k ∈ (r.ReceivePacket packet).2.receivedSeqs
        rw [hbuf, hrecv]
        intro k hk
        rcases (mem_map_fst_mapInsert _ _ _ k).mp hk with h | h
        · rw [h]
          simp
        · exact List.mem_append_left _ (hrcv0 k h)
      · intro x hx
        rw [List.map_nil, List.append_nil] at hx
        obtain ⟨hx1, hx2⟩ := hdel x hx
        constructor
        · rw [hrecv]
          exact List.mem_append_left _ hx1
        · show x ∉ ((r.ReceivePacket packet).2.orderingBuffer).map Prod.fst
          rw [hbuf]
          intro hmem
          rcases (mem_map_fst_mapInsert _ _ _ x).mp hmem with h | h
          · exact hfresh (h ▸ hx1)
          · exact hx2 h
  | getOrdered =>
    obtain ⟨g1, g2, g3, g4, g5, g6⟩ := GetOrderedPackets_spec r hwf
    refine ⟨g1, ?_, ?_⟩
    · rw [List.nodup_append]
      exact ⟨hnd, g2, fun x hx hx' => (hdel x hx).2 (g3 x hx')⟩
    · intro x hx
      rcases List.mem_append.mp hx with hx | hx
      · obtain ⟨hx1, hx2⟩ := hdel x hx
        exact ⟨g5 ▸ hx1, fun hmem => hx2 (g6 x hmem)⟩
      · have hxk := g3 x hx
        exact ⟨g5 ▸ hwf.2.2 x hxk, g4 x hx⟩

/-- Running any trace from an invariant-satisfying state keeps all delivered
sequence numbers pairwise distinct. -/
theorem runOps_nodup_general (ops : List EngineOp) :
    ∀ (r : ReliabilityLayer) (delivered : List Nat),
      BufWF r → delivered.Nodup →
      (∀ x ∈ delivered, x ∈ r.receivedSeqs ∧ x ∉ bufKeys r) →
      (delivered ++ (runOps r ops).1.map Packet.seqNum).Nodup := by
  induction ops with
  | nil =>
    intro r delivered hwf hnd hdel
    simpa [runOps] using hnd
  | cons op ops ih =>
    intro r delivered hwf hnd hdel
    obtain ⟨hwf', hnd', hdel'⟩ := applyOp_preserves r op delivered hwf hnd hdel
    have h := ih (applyOp r op).2 (delivered ++ (applyOp r op).1.map Packet.seqNum)
      hwf' hnd' hdel'
    simpa [runOps, List.map_append, List.append_assoc] using h

/-- The lock-protected engine delivers each unique sequence number to the
application at most once: over every trace of public operations from the
initial state, the sequence numbers of all packets returned by
`GetOrderedPackets` calls are pairwise distinct.  (Duplicate receives are
suppressed by the seen-sequence set, and draining removes a packet from the
buffer as it is delivered.) -/
theorem locked_delivery_at_most_once (ops : List EngineOp) :
    ((runOps NewReliabilityLayer ops).1.map Packet.seqNum).Nodup := by
  have h := runOps_nodup_general ops NewReliabilityLayer []
    (by exact ⟨List.nodup_nil, by simp [NewReliabilityLayer], by simp [NewReliabilityLayer]⟩)
    List.nodup_nil (by simp)
  simpa using h

end GoNet
